import Mathlib

/-!
# Piecewise-jerk speed optimizer: embedding of `PiecewiseJerkSpeedOptimizer.cpp`

The C++ `double` is modelled by the rationals `ℚ` (exact arithmetic), `std::vector` by `List`,
`bool`-returning member functions by functions returning the status together with the updated
state.  The external collaborators (the two convex QP problem classes, the Ipopt application, the
padding routine) are fields of the record `Collaborators`; every invocation of an external solver
is recorded, in order, in a list of `SolverCall`.  An out-of-range `operator[]` / `front()` is
undefined behaviour in C++ and is `none` here.
-/

namespace QPSpeedplan

/-! ## Data model -/

/-- One point of the output profile, the five arguments of `SpeedData::AppendSpeedPoint`. -/
structure ProfilePoint where
  distance : ℚ
  time : ℚ
  velocity : ℚ
  acceleration : ℚ
  jerk : ℚ
deriving DecidableEq

/-- The caller-owned output container `SpeedData`. -/
abbrev SpeedData := List ProfilePoint

/-- The call `speed_data->AppendSpeedPoint(s, t, v, a, j)`. -/
def AppendSpeedPoint (speed_data : SpeedData) (s t v a j : ℚ) : SpeedData :=
  speed_data ++ [ProfilePoint.mk s t v a j]

/-- The three per-knot sequences `distance`, `velocity`, `acceleration` that the stages of
`Process` pass to each other through pointers. -/
structure StageResult where
  distance : List ℚ
  velocity : List ℚ
  acceleration : List ℚ
deriving DecidableEq

/-- The solved sequences `opt_x()`, `opt_dx()`, `opt_ddx()` of a piecewise-jerk QP problem. -/
structure QPSolution where
  opt_x : List ℚ
  opt_dx : List ℚ
  opt_ddx : List ℚ
deriving DecidableEq

/-- Modelled from the spec: the Continuous Curve (class `PiecewiseJerkTrajectory1d`, declared in a
header that is not among the sources): an anchor `(value, d/dx, d²/dx²)` plus an ordered sequence
of `(jerk, segment_length)` pairs appended in order. -/
structure PiecewiseJerkTrajectory1d where
  x0 : ℚ
  dx0 : ℚ
  ddx0 : ℚ
  segments : List (ℚ × ℚ)
deriving DecidableEq

/-- Modelled from the spec: `append_segment(jerk, length)` of the Continuous Curve puts one more
`(jerk, segment_length)` pair at the end of the sequence. -/
def PiecewiseJerkTrajectory1d.AppendSegment (c : PiecewiseJerkTrajectory1d) (jerk param : ℚ) :
    PiecewiseJerkTrajectory1d :=
  { c with segments := c.segments ++ [(jerk, param)] }

/-- Modelled from the spec: evaluation of a Continuous Curve whose current anchor is `st` and whose
remaining segments are the list: locate the segment containing the (local) coordinate `t` and apply
the cubic / quadratic / linear closed form of a constant-jerk piece; the state at the end of a
segment is the anchor of the next.  A coordinate outside the covered extent has no value. -/
def evaluateFrom : List (ℚ × ℚ) → ℚ × ℚ × ℚ → ℚ → Option (ℚ × ℚ × ℚ)
  | [], st, t => if t = 0 then some st else none
  | (j, len) :: rest, (x, dx, ddx), t =>
    if t < 0 then none
    else if t ≤ len then
      some (x + dx * t + ddx * t ^ 2 / 2 + j * t ^ 3 / 6, dx + ddx * t + j * t ^ 2 / 2, ddx + j * t)
    else
      evaluateFrom rest
        (x + dx * len + ddx * len ^ 2 / 2 + j * len ^ 3 / 6, dx + ddx * len + j * len ^ 2 / 2,
          ddx + j * len)
        (t - len)

/-- Modelled from the spec: `evaluate(domain_coordinate)` of the Continuous Curve, giving the
value, the first and the second derivative at the coordinate (measured from the anchor). -/
def PiecewiseJerkTrajectory1d.Evaluate (c : PiecewiseJerkTrajectory1d) (param : ℚ) :
    Option (ℚ × ℚ × ℚ) :=
  evaluateFrom c.segments (c.x0, c.dx0, c.ddx0) param

/-- The position bounds of a QP problem: `set_x_bounds(lo, hi)` (one pair for all knots) or
`set_x_bounds(vector)` (one pair per knot). -/
inductive XBounds where
  | uniform (lower upper : ℚ)
  | perKnot (bounds : List (ℚ × ℚ))
deriving DecidableEq

/-- A configured piecewise-jerk QP problem (`PiecewiseJerkSpeedProblem` /
`PiecewiseJerkPathProblem`): constructor arguments and everything the setters store. -/
structure PiecewiseJerkProblem where
  num_of_knots : Nat
  delta_s : ℚ
  x_init : ℚ × ℚ × ℚ
  x_bounds : XBounds
  dx_bounds : ℚ × ℚ
  ddx_bounds : ℚ × ℚ
  dddx_bound : ℚ × ℚ
  weight_x : ℚ
  weight_dx : ℚ
  weight_ddx : ℚ
  weight_dddx : ℚ
  x_ref_weight : ℚ
  x_ref : List ℚ
deriving DecidableEq

/-- A configured `PiecewiseJerkSpeedNonlinearIpoptInterface`: constructor arguments and
everything the setters called by `OptimizeByNLP` store. -/
structure NlpProblem where
  s_init : ℚ
  s_dot_init : ℚ
  s_ddot_init : ℚ
  delta_t : ℚ
  num_of_knots : Nat
  total_length : ℚ
  s_dot_max : ℚ
  s_ddot_min : ℚ
  s_ddot_max : ℚ
  s_dddot_min : ℚ
  s_dddot_max : ℚ
  safety_bounds : List (ℚ × ℚ)
  curvature_curve : PiecewiseJerkTrajectory1d
  speed_limit_curve : PiecewiseJerkTrajectory1d
  warm_start : List (List ℚ)
  reference_spatial_distance : List ℚ
  w_reference_spatial_distance : ℚ
  w_overall_a : ℚ
  w_overall_j : ℚ
  w_overall_centripetal_acc : ℚ
  reference_speed : ℚ
  w_reference_speed : ℚ
deriving DecidableEq

/-- The status `Ipopt::ApplicationReturnStatus`; only two of its values are named in the source. -/
inductive ApplicationReturnStatus where
  | Solve_Succeeded
  | Solved_To_Acceptable_Level
  | Other (code : Int)
deriving DecidableEq

/-- One invocation of an external solver, with what was handed to it. -/
inductive SolverCall where
  | referenceQP (problem : PiecewiseJerkProblem)
  | curvatureQP (problem : PiecewiseJerkProblem) (max_iter : Nat)
  | speedLimitQP (problem : PiecewiseJerkProblem) (max_iter : Nat)
  | nlpInitialize (print_level max_iter : Int)
  | nlpSolve (problem : NlpProblem)
deriving DecidableEq

/-- The external collaborators of the optimizer. `speedProblemOptimize` is
`PiecewiseJerkSpeedProblem::Optimize()` (`none` when it returns `false`), `pathProblemOptimize` is
`PiecewiseJerkPathProblem::Optimize(max_iter)`, `ipoptInitialize` is
`IpoptApplication::Initialize()` under the two options set before it, `ipoptOptimizeTNLP` is
`IpoptApplication::OptimizeTNLP` together with what `get_optimization_results` then reports, and
`FillEnoughSpeedPoints` is the padding routine of `SpeedProfileGenerator`. -/
structure Collaborators where
  speedProblemOptimize : PiecewiseJerkProblem → Option QPSolution
  pathProblemOptimize : PiecewiseJerkProblem → Nat → Option QPSolution
  ipoptInitialize : Int → Int → ApplicationReturnStatus
  ipoptOptimizeTNLP : NlpProblem → ApplicationReturnStatus × StageResult
  FillEnoughSpeedPoints : SpeedData → SpeedData

/-- The fields of a path point that the optimizer reads. -/
structure PathPoint where
  s_ : ℚ
  kappa_ : ℚ
  dkappa_ : ℚ
  ddkappa_ : ℚ

/-- The part of `DiscretizedPath` that the optimizer uses: `front()`, `back()` and
`Evaluate(path_s)`.  The path has at least one point, so `front()` and `back()` exist. -/
structure DiscretizedPath where
  front : PathPoint
  back : PathPoint
  Evaluate : ℚ → PathPoint

/-- The part of `SpeedLimit` that the optimizer uses. -/
structure SpeedLimit where
  GetSpeedLimitByS : ℚ → ℚ

/-- The member variables of `PiecewiseJerkSpeedOptimizer`. -/
structure PiecewiseJerkSpeedOptimizer where
  delta_t_ : ℚ
  num_of_knots_ : Nat
  total_time_ : ℚ
  total_length_ : ℚ
  s_init_ : ℚ
  s_dot_init_ : ℚ
  s_ddot_init_ : ℚ
  s_dot_max_ : ℚ
  s_ddot_max_ : ℚ
  s_ddot_min_ : ℚ
  s_dddot_min_ : ℚ
  s_dddot_max_ : ℚ
  smoothed_speed_limit_ : PiecewiseJerkTrajectory1d
  smoothed_path_curvature_ : PiecewiseJerkTrajectory1d
deriving DecidableEq

/-- The constructor: both curves are `(0, 0, 0)` with no segment; the scalar members, which the
constructor leaves unset, are taken as `0`. -/
def PiecewiseJerkSpeedOptimizer.new : PiecewiseJerkSpeedOptimizer :=
  { delta_t_ := 0, num_of_knots_ := 0, total_time_ := 0, total_length_ := 0, s_init_ := 0,
    s_dot_init_ := 0, s_ddot_init_ := 0, s_dot_max_ := 0, s_ddot_max_ := 0, s_ddot_min_ := 0,
    s_dddot_min_ := 0, s_dddot_max_ := 0,
    smoothed_speed_limit_ := PiecewiseJerkTrajectory1d.mk 0 0 0 [],
    smoothed_path_curvature_ := PiecewiseJerkTrajectory1d.mk 0 0 0 [] }

/-! ## Operations -/

/-- The arguments of `Process`; `speed_data` is the content of the caller's container at entry. -/
structure ProcessArgs where
  s_bounds : List (ℚ × ℚ)
  soft_s_bounds : List (ℚ × ℚ)
  ref_s_list : List ℚ
  speed_limit : SpeedLimit
  dt : ℚ
  path : DiscretizedPath
  init_v : ℚ
  init_a : ℚ
  speed_data : SpeedData

/-- What a call of `Process` leaves behind: the returned status, the member variables, the
(in-place clipped) `s_bounds`, the four local status variables (`none` while the stage has not been
run), the local sequences `distance`/`velocity`/`acceleration`, the points that `Process` itself
appended with `AppendSpeedPoint`, the content of the caller's container at return, and the solver
invocations in order. -/
structure ProcessResult where
  ok : Bool
  self : PiecewiseJerkSpeedOptimizer
  s_bounds : List (ℚ × ℚ)
  qp_smooth_status : Option Bool
  path_curvature_smooth_status : Option Bool
  speed_limit_smooth_status : Option Bool
  nlp_smooth_status : Option Bool
  refined : StageResult
  emitted : List ProfilePoint
  speed_data : SpeedData
  calls : List SolverCall

/-- The problem that `OptimizeByQP` configures (lines 119-131). -/
def speedProblem (self : PiecewiseJerkSpeedOptimizer) (s_bounds : List (ℚ × ℚ))
    (ref_s_list : List ℚ) : PiecewiseJerkProblem :=
  { num_of_knots := self.num_of_knots_
    delta_s := self.delta_t_
    x_init := (self.s_init_, self.s_dot_init_, self.s_ddot_init_)
    dx_bounds := (0, self.s_dot_max_)
    ddx_bounds := (self.s_ddot_min_, self.s_ddot_max_)
    dddx_bound := (self.s_dddot_min_, self.s_dddot_max_)
    x_bounds := XBounds.perKnot s_bounds
    weight_x := 0
    weight_dx := 0
    weight_ddx := 1
    weight_dddx := 1
    x_ref_weight := 1
    x_ref := ref_s_list }

/-- `OptimizeByQP`: the status, the three output sequences (written only on success) and the
solver invocations. -/
def OptimizeByQP (env : Collaborators) (self : PiecewiseJerkSpeedOptimizer)
    (s_bounds : List (ℚ × ℚ)) (ref_s_list : List ℚ) (out : StageResult) :
    Bool × StageResult × List SolverCall :=
  let piecewise_jerk_problem := speedProblem self s_bounds ref_s_list
  match env.speedProblemOptimize piecewise_jerk_problem with
  | none => (false, out, [SolverCall.referenceQP piecewise_jerk_problem])
  | some sol =>
    (true, StageResult.mk sol.opt_x sol.opt_dx sol.opt_ddx,
      [SolverCall.referenceQP piecewise_jerk_problem])

/-- The curve reconstruction shared, up to the names of the variables, by `SmoothPathCurvature`
(lines 182-187) and `SmoothSpeedLimit` (lines 228-234): the anchor is made of the three
`front()` values, then for `i = 1 .. opt_ddx.size()-1` one segment of length `delta_s` with jerk
`(opt_ddx[i] - opt_ddx[i-1]) / delta_s` is appended.  `front()` of an empty vector is `none`. -/
def reconstructCurve (delta_s : ℚ) (sol : QPSolution) : Option PiecewiseJerkTrajectory1d :=
  match sol.opt_x.head?, sol.opt_dx.head?, sol.opt_ddx.head? with
  | some x0, some dx0, some ddx0 =>
    some ((List.range' 1 (sol.opt_ddx.length - 1)).foldl
      (fun curve i =>
        curve.AppendSegment ((sol.opt_ddx.getD i 0 - sol.opt_ddx.getD (i - 1) 0) / delta_s)
          delta_s)
      (PiecewiseJerkTrajectory1d.mk x0 dx0 ddx0 []))
  | _, _, _ => none

/-- The sampling loop of `SmoothPathCurvature` (lines 145-149), `delta_s = 0.5`:
`for (path_s = ...; path_s < back().s_ + delta_s; path_s += delta_s) push_back(kappa at path_s)`. -/
def samplePathCurvature (path : DiscretizedPath) (path_s : ℚ) (path_curvature : List ℚ) : List ℚ :=
  if path_s < path.back.s_ + 1 / 2 then
    samplePathCurvature path (path_s + 1 / 2) (path_curvature ++ [(path.Evaluate path_s).kappa_])
  else
    path_curvature
termination_by Int.toNat ⌈(path.back.s_ + 1 / 2 - path_s) / (1 / 2)⌉
decreasing_by
  have h1 : (path.back.s_ + 1 / 2 - (path_s + 1 / 2)) / (1 / 2)
      = (path.back.s_ + 1 / 2 - path_s) / (1 / 2) - 1 := by ring
  have h2 : (0 : ℚ) < (path.back.s_ + 1 / 2 - path_s) / (1 / 2) := by
    apply div_pos <;> linarith
  have h3 : 0 < ⌈(path.back.s_ + 1 / 2 - path_s) / (1 / 2)⌉ := Int.ceil_pos.mpr h2
  rw [h1, Int.ceil_sub_one]
  omega

/-- The problem that `SmoothPathCurvature` configures (lines 143-166). -/
def curvatureProblem (cartesian_path : DiscretizedPath) : PiecewiseJerkProblem :=
  let path_curvature := samplePathCurvature cartesian_path cartesian_path.front.s_ []
  { num_of_knots := path_curvature.length
    delta_s := 1 / 2
    x_init :=
      (cartesian_path.front.kappa_, cartesian_path.front.dkappa_, cartesian_path.front.ddkappa_)
    x_bounds := XBounds.uniform (-1) 1
    dx_bounds := (-10, 10)
    ddx_bounds := (-10, 10)
    dddx_bound := (-10, 10)
    weight_x := 0
    weight_dx := 10
    weight_ddx := 10
    weight_dddx := 10
    x_ref_weight := 10
    x_ref := path_curvature }

/-- `SmoothPathCurvature`: the status, the member variables afterwards and the solver
invocations; `none` when `front()` is taken of an empty solved sequence. -/
def SmoothPathCurvature (env : Collaborators) (self : PiecewiseJerkSpeedOptimizer)
    (cartesian_path : DiscretizedPath) :
    Option (Bool × PiecewiseJerkSpeedOptimizer × List SolverCall) :=
  let piecewise_jerk_problem := curvatureProblem cartesian_path
  match env.pathProblemOptimize piecewise_jerk_problem 1000 with
  | none => some (false, self, [SolverCall.curvatureQP piecewise_jerk_problem 1000])
  | some sol =>
    match reconstructCurve (1 / 2) sol with
    | none => none
    | some smoothed_path_curvature =>
      some (true, { self with smoothed_path_curvature_ := smoothed_path_curvature },
        [SolverCall.curvatureQP piecewise_jerk_problem 1000])

/-- The problem that `SmoothSpeedLimit` configures (lines 193-213): 100 samples of the speed
limit at `path_s = i * delta_s`, `delta_s = 2.0`. -/
def speedLimitProblem (speed_limit : SpeedLimit) : PiecewiseJerkProblem :=
  let speed_ref := (List.range 100).map (fun i => speed_limit.GetSpeedLimitByS ((i : ℚ) * 2))
  { num_of_knots := speed_ref.length
    delta_s := 2
    x_init := (speed_ref.getD 0 0, 0, 0)
    x_bounds := XBounds.uniform 0 50
    dx_bounds := (-10, 10)
    ddx_bounds := (-10, 10)
    dddx_bound := (-10, 10)
    weight_x := 0
    weight_dx := 10
    weight_ddx := 10
    weight_dddx := 10
    x_ref_weight := 10
    x_ref := speed_ref }

/-- `SmoothSpeedLimit`: the status, the member variables afterwards and the solver invocations;
`none` when `front()` is taken of an empty solved sequence. -/
def SmoothSpeedLimit (env : Collaborators) (self : PiecewiseJerkSpeedOptimizer)
    (speed_limit : SpeedLimit) : Option (Bool × PiecewiseJerkSpeedOptimizer × List SolverCall) :=
  let piecewise_jerk_problem := speedLimitProblem speed_limit
  match env.pathProblemOptimize piecewise_jerk_problem 4000 with
  | none => some (false, self, [SolverCall.speedLimitQP piecewise_jerk_problem 4000])
  | some sol =>
    match reconstructCurve 2 sol with
    | none => none
    | some smoothed_speed_limit =>
      some (true, { self with smoothed_speed_limit_ := smoothed_speed_limit },
        [SolverCall.speedLimitQP piecewise_jerk_problem 4000])

/-- The warm-start test of `OptimizeByNLP` (lines 260-263). -/
def warmStartInvalid (sr : StageResult) : Prop :=
  sr.distance = [] ∨ sr.velocity = [] ∨ sr.acceleration = [] ∨
    sr.distance.length ≠ sr.velocity.length ∨ sr.velocity.length ≠ sr.acceleration.length

instance (sr : StageResult) : Decidable (warmStartInvalid sr) := by
  unfold warmStartInvalid
  infer_instance

/-- The interface object that `OptimizeByNLP` configures (lines 247-291). -/
def nlpProblem (self : PiecewiseJerkSpeedOptimizer) (s_bounds : List (ℚ × ℚ))
    (sr : StageResult) : NlpProblem :=
  { s_init := self.s_init_
    s_dot_init := self.s_dot_init_
    s_ddot_init := self.s_ddot_init_
    delta_t := self.delta_t_
    num_of_knots := self.num_of_knots_
    total_length := self.total_length_
    s_dot_max := self.s_dot_max_
    s_ddot_min := self.s_ddot_min_
    s_ddot_max := self.s_ddot_max_
    s_dddot_min := self.s_dddot_min_
    s_dddot_max := self.s_dddot_max_
    safety_bounds := s_bounds
    curvature_curve := self.smoothed_path_curvature_
    speed_limit_curve := self.smoothed_speed_limit_
    warm_start := (List.range sr.distance.length).map
      (fun i => [sr.distance.getD i 0, sr.velocity.getD i 0, sr.acceleration.getD i 0])
    reference_spatial_distance := sr.distance
    w_reference_spatial_distance := 10
    w_overall_a := 2
    w_overall_j := 3
    w_overall_centripetal_acc := 1000
    reference_speed := 5
    w_reference_speed := 5 }

/-- `OptimizeByNLP`: the status, the three sequences behind the pointers afterwards, and the
invocations of the external nonlinear engine. -/
def OptimizeByNLP (env : Collaborators) (self : PiecewiseJerkSpeedOptimizer)
    (s_bounds : List (ℚ × ℚ)) (_soft_s_bounds : List (ℚ × ℚ)) (sr : StageResult) :
    Bool × StageResult × List SolverCall :=
  if warmStartInvalid sr then
    (false, sr, [])
  else
    let ptr_interface := nlpProblem self s_bounds sr
    if env.ipoptInitialize 0 1000 ≠ ApplicationReturnStatus.Solve_Succeeded then
      (false, sr, [SolverCall.nlpInitialize 0 1000])
    else
      let solved := env.ipoptOptimizeTNLP ptr_interface
      if solved.1 = ApplicationReturnStatus.Solve_Succeeded ∨
          solved.1 = ApplicationReturnStatus.Solved_To_Acceptable_Level then
        (true, solved.2, [SolverCall.nlpInitialize 0 1000, SolverCall.nlpSolve ptr_interface])
      else
        (false, sr, [SolverCall.nlpInitialize 0 1000, SolverCall.nlpSolve ptr_interface])

/-- The body of the assembly loop of `Process` (lines 99-107), run over the remaining values of
the loop variable `i`: stop at a negative `velocity[i]`, otherwise append the point of knot `i`. -/
def assembleLoop (delta_t : ℚ) (sr : StageResult) : List Nat → SpeedData → Option SpeedData
  | [], speed_data => some speed_data
  | i :: rest, speed_data =>
    match sr.velocity[i]? with
    | none => none
    | some vi =>
      if vi < 0 then some speed_data
      else
        match sr.distance[i]?, sr.acceleration[i]?, sr.acceleration[i - 1]? with
        | some di, some ai, some aprev =>
          assembleLoop delta_t sr rest
            (AppendSpeedPoint speed_data di (delta_t * (i : ℚ)) vi ai ((ai - aprev) / delta_t))
        | _, _, _ => none

/-- The output assembly of `Process` (lines 97-107) on the cleared container: the point of knot 0
is appended first, then the loop runs for `i = 1 .. num_of_knots-1`. -/
def assemble (delta_t : ℚ) (num_of_knots : Nat) (sr : StageResult) : Option SpeedData :=
  match sr.distance[0]?, sr.velocity[0]?, sr.acceleration[0]? with
  | some d0, some v0, some a0 =>
    assembleLoop delta_t sr (List.range' 1 (num_of_knots - 1)) (AppendSpeedPoint [] d0 0 v0 a0 0)
  | _, _, _ => none

/-- A failed `Process` call: status `false`, nothing appended; `statuses` are the values of the
four local status variables in the order of the stages. -/
def ProcessResult.failure (self : PiecewiseJerkSpeedOptimizer) (s_bounds : List (ℚ × ℚ))
    (statuses : Option Bool × Option Bool × Option Bool × Option Bool)
    (refined : StageResult) (speed_data : SpeedData) (calls : List SolverCall) : ProcessResult :=
  { ok := false, self := self, s_bounds := s_bounds,
    qp_smooth_status := statuses.1,
    path_curvature_smooth_status := statuses.2.1,
    speed_limit_smooth_status := statuses.2.2.1,
    nlp_smooth_status := statuses.2.2.2,
    refined := refined, emitted := [], speed_data := speed_data, calls := calls }

/-- The member variables after lines 28-31 of `Process`. -/
def setDiscretization (self : PiecewiseJerkSpeedOptimizer) (args : ProcessArgs) :
    PiecewiseJerkSpeedOptimizer :=
  { self with
    delta_t_ := args.dt
    num_of_knots_ := args.s_bounds.length
    total_time_ := args.dt * ((args.s_bounds.length : ℚ) - 1)
    total_length_ := args.path.back.s_ }

/-- The member variables after lines 36-44 of `Process`. -/
def setLimits (self : PiecewiseJerkSpeedOptimizer) (args : ProcessArgs) :
    PiecewiseJerkSpeedOptimizer :=
  { self with
    s_init_ := 0
    s_dot_init_ := args.init_v
    s_ddot_init_ := args.init_a
    s_dot_max_ := max 15 args.init_v
    s_ddot_max_ := 2
    s_ddot_min_ := -3
    s_dddot_min_ := -4
    s_dddot_max_ := 2 }

/-- The loop of lines 46-48: every upper bound becomes `std::min(upper, total_length_)`. -/
def clipBounds (s_bounds : List (ℚ × ℚ)) (total_length : ℚ) : List (ℚ × ℚ) :=
  s_bounds.map (fun bound => (bound.1, min bound.2 total_length))

/-- `Process` (lines 18-112).  `none` stands for an out-of-range access. -/
def Process (env : Collaborators) (self : PiecewiseJerkSpeedOptimizer) (args : ProcessArgs) :
    Option ProcessResult :=
  if args.s_bounds.length ≠ args.soft_s_bounds.length then
    some (ProcessResult.failure self args.s_bounds (none, none, none, none)
      (StageResult.mk [] [] []) args.speed_data [])
  else
    let self1 := setDiscretization self args
    if |self1.total_length_| < 1 / 10000000 then
      some (ProcessResult.failure self1 args.s_bounds (none, none, none, none)
        (StageResult.mk [] [] []) args.speed_data [])
    else
      let self2 := setLimits self1 args
      let s_bounds := clipBounds args.s_bounds self2.total_length_
      match OptimizeByQP env self2 s_bounds args.ref_s_list (StageResult.mk [] [] []) with
      | (false, sr, calls1) =>
        some (ProcessResult.failure self2 s_bounds (some false, none, none, none) sr
          args.speed_data calls1)
      | (true, sr, calls1) =>
        match SmoothPathCurvature env self2 args.path with
        | none => none
        | some (false, self3, calls2) =>
          some (ProcessResult.failure self3 s_bounds (some true, some false, none, none) sr
            args.speed_data (calls1 ++ calls2))
        | some (true, self3, calls2) =>
          match SmoothSpeedLimit env self3 args.speed_limit with
          | none => none
          | some (false, self4, calls3) =>
            some (ProcessResult.failure self4 s_bounds (some true, some true, some false, none) sr
              args.speed_data (calls1 ++ calls2 ++ calls3))
          | some (true, self4, calls3) =>
            match OptimizeByNLP env self4 s_bounds args.soft_s_bounds sr with
            | (false, sr', calls4) =>
              some (ProcessResult.failure self4 s_bounds
                (some true, some true, some true, some false) sr' []
                (calls1 ++ calls2 ++ calls3 ++ calls4))
            | (true, sr', calls4) =>
              match assemble self4.delta_t_ self4.num_of_knots_ sr' with
              | none => none
              | some points =>
                some
                  { ok := true, self := self4, s_bounds := s_bounds,
                    qp_smooth_status := some true,
                    path_curvature_smooth_status := some true,
                    speed_limit_smooth_status := some true,
                    nlp_smooth_status := some true,
                    refined := sr', emitted := points,
                    speed_data := env.FillEnoughSpeedPoints points,
                    calls := calls1 ++ calls2 ++ calls3 ++ calls4 }

/-- The four stages of `Process`, in the order in which it runs them. -/
inductive Stage where
  | referenceSmoother
  | curvatureSmoother
  | speedLimitSmoother
  | nonlinearRefiner
deriving DecidableEq

/-- Position of a stage in the sequence of `Process`. -/
def Stage.index : Stage → Nat
  | Stage.referenceSmoother => 0
  | Stage.curvatureSmoother => 1
  | Stage.speedLimitSmoother => 2
  | Stage.nonlinearRefiner => 3

/-- The stage on whose behalf a solver is invoked. -/
def SolverCall.stage : SolverCall → Stage
  | SolverCall.referenceQP _ => Stage.referenceSmoother
  | SolverCall.curvatureQP _ _ => Stage.curvatureSmoother
  | SolverCall.speedLimitQP _ _ => Stage.speedLimitSmoother
  | SolverCall.nlpInitialize _ _ => Stage.nonlinearRefiner
  | SolverCall.nlpSolve _ => Stage.nonlinearRefiner

/-- The local status variable of `Process` that holds what a stage reported. -/
def ProcessResult.status (r : ProcessResult) : Stage → Option Bool
  | Stage.referenceSmoother => r.qp_smooth_status
  | Stage.curvatureSmoother => r.path_curvature_smooth_status
  | Stage.speedLimitSmoother => r.speed_limit_smooth_status
  | Stage.nonlinearRefiner => r.nlp_smooth_status

/-- The hard bounds that a solver invocation received, when the solver takes per-knot bounds. -/
def SolverCall.hardBounds : SolverCall → Option (List (ℚ × ℚ))
  | SolverCall.referenceQP problem =>
    match problem.x_bounds with
    | XBounds.perKnot bounds => some bounds
    | XBounds.uniform _ _ => none
  | SolverCall.nlpSolve problem => some problem.safety_bounds
  | _ => none

/-- Modelled from the spec: the constraint "fixed initial state" of the Nonlinear Refiner (the
class `PiecewiseJerkSpeedNonlinearIpoptInterface` is not among the sources): whenever the
nonlinear engine ends with one of the two statuses that count as success, the sequences reported
by `get_optimization_results` start with the initial state given to the constructor. -/
def FixedInitialState (env : Collaborators) : Prop :=
  ∀ problem : NlpProblem,
    ((env.ipoptOptimizeTNLP problem).1 = ApplicationReturnStatus.Solve_Succeeded ∨
      (env.ipoptOptimizeTNLP problem).1 = ApplicationReturnStatus.Solved_To_Acceptable_Level) →
    (env.ipoptOptimizeTNLP problem).2.distance.head? = some problem.s_init ∧
    (env.ipoptOptimizeTNLP problem).2.velocity.head? = some problem.s_dot_init ∧
    (env.ipoptOptimizeTNLP problem).2.acceleration.head? = some problem.s_ddot_init

/-- The point that the specification prescribes for knot `k` of the refined sequences:
`(position[k], k·dt, velocity[k], acceleration[k], jerk)`, where `jerk = 0` and the time is `0`
for `k = 0`, and `jerk = (acceleration[k] - acceleration[k-1]) / dt` for `k ≥ 1`. -/
def knotPoint (dt : ℚ) (sr : StageResult) (k : Nat) : Option ProfilePoint :=
  match sr.distance[k]?, sr.velocity[k]?, sr.acceleration[k]? with
  | some d, some v, some a =>
    if k = 0 then some (ProfilePoint.mk d 0 v a 0)
    else
      (sr.acceleration[k - 1]?).map
        (fun aprev => ProfilePoint.mk d ((k : ℚ) * dt) v a ((a - aprev) / dt))
  | _, _, _ => none

/-! ## Concrete collaborators and inputs -/

/-- Collaborators whose solvers all report failure. -/
def failingEnv : Collaborators :=
  { speedProblemOptimize := fun _ => none
    pathProblemOptimize := fun _ _ => none
    ipoptInitialize := fun _ _ => ApplicationReturnStatus.Other (-1)
    ipoptOptimizeTNLP := fun _ => (ApplicationReturnStatus.Other (-1), StageResult.mk [] [] [])
    FillEnoughSpeedPoints := fun speed_data => speed_data }

/-- Collaborators whose solvers all succeed: the QP solvers return the three given sequences, the
nonlinear engine returns `refined` with the first knot replaced by the initial state. -/
def succeedingEnv (warm curve : QPSolution) (refined : StageResult) : Collaborators :=
  { speedProblemOptimize := fun _ => some warm
    pathProblemOptimize := fun _ _ => some curve
    ipoptInitialize := fun _ _ => ApplicationReturnStatus.Solve_Succeeded
    ipoptOptimizeTNLP := fun problem =>
      (ApplicationReturnStatus.Solve_Succeeded,
        StageResult.mk (problem.s_init :: refined.distance.tail)
          (problem.s_dot_init :: refined.velocity.tail)
          (problem.s_ddot_init :: refined.acceleration.tail))
    FillEnoughSpeedPoints := fun speed_data => speed_data }

/-- A straight path from arc length 0 to `length`, curvature zero everywhere. -/
def flatPath (length : ℚ) : DiscretizedPath :=
  { front := PathPoint.mk 0 0 0 0
    back := PathPoint.mk length 0 0 0
    Evaluate := fun path_s => PathPoint.mk path_s 0 0 0 }

/-- A three-knot input: `dt = 1/2`, hard and soft bounds `[(0,0),(0,5),(0,10)]`, reference
`[0,1,2]`, initial velocity 2 and acceleration 0, speed limit 10, a flat path of the given
length, and an empty container. -/
def sampleArgs (length : ℚ) : ProcessArgs :=
  { s_bounds := [(0, 0), (0, 5), (0, 10)]
    soft_s_bounds := [(0, 0), (0, 5), (0, 10)]
    ref_s_list := [0, 1, 2]
    speed_limit := SpeedLimit.mk (fun _ => 10)
    dt := 1 / 2
    path := flatPath length
    init_v := 2
    init_a := 0
    speed_data := [] }

/-- An input whose hard-bound sequence has three pairs and whose soft-bound sequence has two. -/
def mismatchedArgs : ProcessArgs :=
  { sampleArgs 1 with soft_s_bounds := [(0, 0), (0, 5)] }

/-- An input with no knot at all and a negative time step, on a flat path of length 1. -/
def noKnotArgs : ProcessArgs :=
  { sampleArgs 1 with s_bounds := [], soft_s_bounds := [], ref_s_list := [], dt := -1 }

/-- An input with one knot whose hard bound `(30, 40)` lies beyond the end of a flat path of
length 20. -/
def beyondPathArgs : ProcessArgs :=
  { sampleArgs 20 with s_bounds := [(30, 40)], soft_s_bounds := [(30, 40)], ref_s_list := [30] }

/-- The three-knot input of `sampleArgs 1` with the vehicle rolling backwards: initial
velocity `-1`. -/
def reversingArgs : ProcessArgs :=
  { sampleArgs 1 with init_v := -1 }

/-- Collaborators that succeed on the three-knot inputs: warm start `[0,1,2]`, `[2,2,2]`,
`[0,0,0]`, two-knot curves, and refined sequences whose later knots are `[1,2]`, `[2,-1]`,
`[1/2,0]` (the velocity of knot 2 is negative). -/
def sampleEnv : Collaborators :=
  succeedingEnv (QPSolution.mk [0, 1, 2] [2, 2, 2] [0, 0, 0]) (QPSolution.mk [0, 0] [0, 0] [0, 0])
    (StageResult.mk [0, 1, 2] [0, 2, -1] [0, 1 / 2, 0])

/-! ## Structure of a `Process` call -/

/-- The reference QP stage invokes exactly one solver, the reference QP. -/
theorem OptimizeByQP_calls (env : Collaborators) (self : PiecewiseJerkSpeedOptimizer)
    (s_bounds : List (ℚ × ℚ)) (ref_s_list : List ℚ) (out : StageResult) :
    (OptimizeByQP env self s_bounds ref_s_list out).2.2
      = [SolverCall.referenceQP (speedProblem self s_bounds ref_s_list)] := by
  simp only [OptimizeByQP]
  split <;> rfl

/-- The curvature stage invokes exactly one solver, the curvature QP, and changes no member
variable other than the curvature curve. -/
theorem SmoothPathCurvature_inv (env : Collaborators) (self self' : PiecewiseJerkSpeedOptimizer)
    (path : DiscretizedPath) (ok : Bool) (calls : List SolverCall)
    (h : SmoothPathCurvature env self path = some (ok, self', calls)) :
    calls = [SolverCall.curvatureQP (curvatureProblem path) 1000] ∧
      self'.delta_t_ = self.delta_t_ ∧ self'.num_of_knots_ = self.num_of_knots_ ∧
      self'.s_init_ = self.s_init_ ∧ self'.s_dot_init_ = self.s_dot_init_ ∧
      self'.s_ddot_init_ = self.s_ddot_init_ := by
  simp only [SmoothPathCurvature] at h
  split at h
  · simp only [Option.some.injEq, Prod.mk.injEq] at h
    obtain ⟨-, rfl, rfl⟩ := h
    simp
  · split at h
    · exact absurd h (by simp)
    · simp only [Option.some.injEq, Prod.mk.injEq] at h
      obtain ⟨-, rfl, rfl⟩ := h
      simp

/-- The speed-limit stage invokes exactly one solver, the speed-limit QP, and changes no member
variable other than the speed-limit curve. -/
theorem SmoothSpeedLimit_inv (env : Collaborators) (self self' : PiecewiseJerkSpeedOptimizer)
    (speed_limit : SpeedLimit) (ok : Bool) (calls : List SolverCall)
    (h : SmoothSpeedLimit env self speed_limit = some (ok, self', calls)) :
    calls = [SolverCall.speedLimitQP (speedLimitProblem speed_limit) 4000] ∧
      self'.delta_t_ = self.delta_t_ ∧ self'.num_of_knots_ = self.num_of_knots_ ∧
      self'.s_init_ = self.s_init_ ∧ self'.s_dot_init_ = self.s_dot_init_ ∧
      self'.s_ddot_init_ = self.s_ddot_init_ := by
  simp only [SmoothSpeedLimit] at h
  split at h
  · simp only [Option.some.injEq, Prod.mk.injEq] at h
    obtain ⟨-, rfl, rfl⟩ := h
    simp
  · split at h
    · exact absurd h (by simp)
    · simp only [Option.some.injEq, Prod.mk.injEq] at h
      obtain ⟨-, rfl, rfl⟩ := h
      simp

/-- What `OptimizeByNLP` can return: a failure leaves the sequences as they were, a success
replaces them by the engine's results; the only solvers invoked are those of the nonlinear
engine, and a solve is handed the interface object configured from the arguments. -/
theorem OptimizeByNLP_inv (env : Collaborators) (self : PiecewiseJerkSpeedOptimizer)
    (s_bounds soft : List (ℚ × ℚ)) (sr sr' : StageResult) (ok : Bool) (calls : List SolverCall)
    (h : OptimizeByNLP env self s_bounds soft sr = (ok, sr', calls)) :
    (ok = false → sr' = sr) ∧
    (ok = true → sr' = (env.ipoptOptimizeTNLP (nlpProblem self s_bounds sr)).2 ∧
      ((env.ipoptOptimizeTNLP (nlpProblem self s_bounds sr)).1
          = ApplicationReturnStatus.Solve_Succeeded ∨
        (env.ipoptOptimizeTNLP (nlpProblem self s_bounds sr)).1
          = ApplicationReturnStatus.Solved_To_Acceptable_Level)) ∧
    (∀ c ∈ calls, c = SolverCall.nlpInitialize 0 1000 ∨
      c = SolverCall.nlpSolve (nlpProblem self s_bounds sr)) := by
  simp only [OptimizeByNLP] at h
  split_ifs at h with h1 h2 h3 <;> simp only [Prod.mk.injEq] at h <;>
    obtain ⟨rfl, rfl, rfl⟩ := h <;> simp
  exact h3

/-- The seven ways in which a `Process` call can end, with what it leaves behind in each. -/
theorem Process_cases (env : Collaborators) (self : PiecewiseJerkSpeedOptimizer)
    (args : ProcessArgs) (r : ProcessResult) (h : Process env self args = some r) :
    (args.s_bounds.length ≠ args.soft_s_bounds.length ∧
      r = ProcessResult.failure self args.s_bounds (none, none, none, none)
        (StageResult.mk [] [] []) args.speed_data []) ∨
    (args.s_bounds.length = args.soft_s_bounds.length ∧ |args.path.back.s_| < 1 / 10000000 ∧
      r = ProcessResult.failure (setDiscretization self args) args.s_bounds
        (none, none, none, none) (StageResult.mk [] [] []) args.speed_data []) ∨
    (args.s_bounds.length = args.soft_s_bounds.length ∧ ¬ |args.path.back.s_| < 1 / 10000000 ∧
      ∃ ok1 sr c1,
        OptimizeByQP env (setLimits (setDiscretization self args) args)
          (clipBounds args.s_bounds args.path.back.s_) args.ref_s_list (StageResult.mk [] [] [])
          = (ok1, sr, c1) ∧
        ((ok1 = false ∧
          r = ProcessResult.failure (setLimits (setDiscretization self args) args)
            (clipBounds args.s_bounds args.path.back.s_) (some false, none, none, none) sr
            args.speed_data c1) ∨
        (ok1 = true ∧ ∃ ok2 self3 c2,
          SmoothPathCurvature env (setLimits (setDiscretization self args) args) args.path
            = some (ok2, self3, c2) ∧
          ((ok2 = false ∧
            r = ProcessResult.failure self3 (clipBounds args.s_bounds args.path.back.s_)
              (some true, some false, none, none) sr args.speed_data (c1 ++ c2)) ∨
          (ok2 = true ∧ ∃ ok3 self4 c3,
            SmoothSpeedLimit env self3 args.speed_limit = some (ok3, self4, c3) ∧
            ((ok3 = false ∧
              r = ProcessResult.failure self4 (clipBounds args.s_bounds args.path.back.s_)
                (some true, some true, some false, none) sr args.speed_data
                (c1 ++ c2 ++ c3)) ∨
            (ok3 = true ∧ ∃ ok4 sr' c4,
              OptimizeByNLP env self4 (clipBounds args.s_bounds args.path.back.s_)
                args.soft_s_bounds sr = (ok4, sr', c4) ∧
              ((ok4 = false ∧
                r = ProcessResult.failure self4 (clipBounds args.s_bounds args.path.back.s_)
                  (some true, some true, some true, some false) sr' []
                  (c1 ++ c2 ++ c3 ++ c4)) ∨
              (ok4 = true ∧ ∃ points,
                assemble self4.delta_t_ self4.num_of_knots_ sr' = some points ∧
                r = { ok := true, self := self4,
                      s_bounds := clipBounds args.s_bounds args.path.back.s_,
                      qp_smooth_status := some true,
                      path_curvature_smooth_status := some true,
                      speed_limit_smooth_status := some true,
                      nlp_smooth_status := some true,
                      refined := sr', emitted := points,
                      speed_data := env.FillEnoughSpeedPoints points,
                      calls := c1 ++ c2 ++ c3 ++ c4 }))))))))) := by
  simp only [Process] at h
  split_ifs at h with hlen hpath
  · left
    exact ⟨hlen, (Option.some.inj h).symm⟩
  · right; left
    exact ⟨not_not.mp hlen, hpath, (Option.some.inj h).symm⟩
  · right; right
    refine ⟨not_not.mp hlen, hpath, ?_⟩
    split at h
    · next sr c1 hqp =>
      exact ⟨false, sr, c1, hqp, Or.inl ⟨rfl, (Option.some.inj h).symm⟩⟩
    · next sr c1 hqp =>
      refine ⟨true, sr, c1, hqp, Or.inr ⟨rfl, ?_⟩⟩
      split at h
      · exact absurd h (by simp)
      · next self3 c2 hc =>
        exact ⟨false, self3, c2, hc, Or.inl ⟨rfl, (Option.some.inj h).symm⟩⟩
      · next self3 c2 hc =>
        refine ⟨true, self3, c2, hc, Or.inr ⟨rfl, ?_⟩⟩
        split at h
        · exact absurd h (by simp)
        · next self4 c3 hs =>
          exact ⟨false, self4, c3, hs, Or.inl ⟨rfl, (Option.some.inj h).symm⟩⟩
        · next self4 c3 hs =>
          refine ⟨true, self4, c3, hs, Or.inr ⟨rfl, ?_⟩⟩
          split at h
          · next sr' c4 hn =>
            exact ⟨false, sr', c4, hn, Or.inl ⟨rfl, (Option.some.inj h).symm⟩⟩
          · next sr' c4 hn =>
            refine ⟨true, sr', c4, hn, Or.inr ⟨rfl, ?_⟩⟩
            split at h
            · exact absurd h (by simp)
            · next points ha =>
              exact ⟨points, ha, (Option.some.inj h).symm⟩

/-- A call that passes both precondition checks hands the clipped bounds back to the caller and
invokes the reference QP first, on the problem configured from the arguments; every further
solver invocation is the curvature QP, the speed-limit QP, or the nonlinear engine working on an
interface object that was given the same clipped bounds. -/
theorem Process_ran (env : Collaborators) (self : PiecewiseJerkSpeedOptimizer)
    (args : ProcessArgs) (r : ProcessResult) (h : Process env self args = some r)
    (hlen : args.s_bounds.length = args.soft_s_bounds.length)
    (hpath : ¬ |args.path.back.s_| < 1 / 10000000) :
    r.s_bounds = clipBounds args.s_bounds args.path.back.s_ ∧
    ∃ rest, r.calls = SolverCall.referenceQP (speedProblem
        (setLimits (setDiscretization self args) args)
        (clipBounds args.s_bounds args.path.back.s_) args.ref_s_list) :: rest ∧
      ∀ c ∈ rest, c = SolverCall.curvatureQP (curvatureProblem args.path) 1000 ∨
        c = SolverCall.speedLimitQP (speedLimitProblem args.speed_limit) 4000 ∨
        c = SolverCall.nlpInitialize 0 1000 ∨
        ∃ self4 sr, c = SolverCall.nlpSolve
          (nlpProblem self4 (clipBounds args.s_bounds args.path.back.s_) sr) := by
  rcases Process_cases env self args r h with
    ⟨h1, -⟩ | ⟨-, h2, -⟩ | ⟨-, -, ok1, sr, c1, hqp, hrest⟩
  · exact absurd hlen h1
  · exact absurd h2 hpath
  · have hc1 : c1 = [SolverCall.referenceQP (speedProblem
        (setLimits (setDiscretization self args) args)
        (clipBounds args.s_bounds args.path.back.s_) args.ref_s_list)] := by
      have := OptimizeByQP_calls env (setLimits (setDiscretization self args) args)
        (clipBounds args.s_bounds args.path.back.s_) args.ref_s_list (StageResult.mk [] [] [])
      rw [hqp] at this
      exact this
    subst hc1
    rcases hrest with ⟨-, rfl⟩ | ⟨-, ok2, self3, c2, hcurv, hrest⟩
    · exact ⟨rfl, [], rfl, by simp⟩
    · have hc2 := (SmoothPathCurvature_inv env _ _ _ _ _ hcurv).1
      subst hc2
      rcases hrest with ⟨-, rfl⟩ | ⟨-, ok3, self4, c3, hsl, hrest⟩
      · exact ⟨rfl, _, rfl, by simp⟩
      · have hc3 := (SmoothSpeedLimit_inv env _ _ _ _ _ hsl).1
        subst hc3
        rcases hrest with ⟨-, rfl⟩ | ⟨-, ok4, sr', c4, hnlp, hrest⟩
        · exact ⟨rfl, _, rfl, by simp⟩
        · have hc4 := (OptimizeByNLP_inv env _ _ _ _ _ _ _ hnlp).2.2
          have hrestc : ∀ c ∈ [SolverCall.curvatureQP (curvatureProblem args.path) 1000]
              ++ [SolverCall.speedLimitQP (speedLimitProblem args.speed_limit) 4000] ++ c4,
              c = SolverCall.curvatureQP (curvatureProblem args.path) 1000 ∨
              c = SolverCall.speedLimitQP (speedLimitProblem args.speed_limit) 4000 ∨
              c = SolverCall.nlpInitialize 0 1000 ∨
              ∃ self4 sr, c = SolverCall.nlpSolve
                (nlpProblem self4 (clipBounds args.s_bounds args.path.back.s_) sr) := by
            intro c hc
            simp only [List.singleton_append, List.cons_append, List.nil_append, List.mem_cons]
              at hc
            rcases hc with rfl | rfl | hc
            · exact Or.inl rfl
            · exact Or.inr (Or.inl rfl)
            · rcases hc4 c hc with rfl | rfl
              · exact Or.inr (Or.inr (Or.inl rfl))
              · exact Or.inr (Or.inr (Or.inr ⟨_, _, rfl⟩))
          rcases hrest with ⟨-, rfl⟩ | ⟨-, points, -, rfl⟩
          · exact ⟨rfl, _, by simp [ProcessResult.failure], hrestc⟩
          · exact ⟨rfl, _, by simp, hrestc⟩

/-- A call that fails one of the two precondition checks returns failure with no solver
invoked. -/
theorem Process_not_ran (env : Collaborators) (self : PiecewiseJerkSpeedOptimizer)
    (args : ProcessArgs) (r : ProcessResult) (h : Process env self args = some r)
    (hpre : args.s_bounds.length ≠ args.soft_s_bounds.length ∨
      |args.path.back.s_| < 1 / 10000000) :
    r.ok = false ∧ r.calls = [] := by
  rcases Process_cases env self args r h with ⟨-, rfl⟩ | ⟨-, -, rfl⟩ | ⟨h1, h2, -⟩
  · exact ⟨rfl, rfl⟩
  · exact ⟨rfl, rfl⟩
  · rcases hpre with h | h
    · exact absurd h1 h
    · exact absurd h h2

/-- The sampling loop on a flat path from 0 to 1: the three samples at 0, 1/2 and 1 (the last
one is taken because `1 < 1 + 1/2`), then the loop ends at `3/2`. -/
theorem samplePathCurvature_flatPath :
    samplePathCurvature (flatPath 1) (flatPath 1).front.s_ [] = [0, 0, 0] := by
  have e1 : samplePathCurvature (flatPath 1) 0 []
      = samplePathCurvature (flatPath 1) (1 / 2) [0] := by
    rw [samplePathCurvature]
    norm_num [flatPath]
  have e2 : samplePathCurvature (flatPath 1) (1 / 2) [0]
      = samplePathCurvature (flatPath 1) 1 [0, 0] := by
    rw [samplePathCurvature]
    norm_num [flatPath]
  have e3 : samplePathCurvature (flatPath 1) 1 [0, 0]
      = samplePathCurvature (flatPath 1) (3 / 2) [0, 0, 0] := by
    rw [samplePathCurvature]
    norm_num [flatPath]
  have e4 : samplePathCurvature (flatPath 1) (3 / 2) [0, 0, 0] = [0, 0, 0] := by
    rw [samplePathCurvature]
    norm_num [flatPath]
  show samplePathCurvature (flatPath 1) 0 [] = [0, 0, 0]
  rw [e1, e2, e3, e4]

/-! ## Precondition checks (C5, C6) -/

/-- C5: when the hard-bound and soft-bound sequences differ in length, `Process` returns failure,
invokes no solver at all (the list of solver invocations is empty: no reference QP, no curvature
QP, no speed-limit QP, no nonlinear engine), appends no point, and leaves the caller's container
as it was. -/
theorem Process_length_mismatch (env : Collaborators) (self : PiecewiseJerkSpeedOptimizer)
    (args : ProcessArgs) (h : args.s_bounds.length ≠ args.soft_s_bounds.length) :
    ∃ r, Process env self args = some r ∧ r.ok = false ∧ r.calls = [] ∧ r.emitted = [] ∧
      r.speed_data = args.speed_data := by
  have hp : Process env self args
      = some (ProcessResult.failure self args.s_bounds (none, none, none, none)
          (StageResult.mk [] [] []) args.speed_data []) := by
    simp only [Process, if_pos h]
  exact ⟨_, hp, rfl, rfl, rfl, rfl⟩

/-- Witness of C5: three hard bounds against two soft bounds, with solvers that would succeed. -/
theorem Process_length_mismatch_witness :
    mismatchedArgs.s_bounds.length ≠ mismatchedArgs.soft_s_bounds.length ∧
    ∃ r, Process (succeedingEnv (QPSolution.mk [0] [0] [0]) (QPSolution.mk [0] [0] [0])
        (StageResult.mk [0] [0] [0])) PiecewiseJerkSpeedOptimizer.new mismatchedArgs = some r ∧
      r.ok = false ∧ r.calls = [] ∧ r.emitted = [] ∧ r.speed_data = mismatchedArgs.speed_data :=
  ⟨by simp [mismatchedArgs, sampleArgs],
    Process_length_mismatch _ _ _ (by simp [mismatchedArgs, sampleArgs])⟩

/-- C6: with bound sequences of equal length, when the path length (the arc length `s_` of the
last path point) is below the epsilon `1e-7` in magnitude, `Process` returns failure and invokes
no solver (and appends no point). -/
theorem Process_degenerate_path (env : Collaborators) (self : PiecewiseJerkSpeedOptimizer)
    (args : ProcessArgs) (hlen : args.s_bounds.length = args.soft_s_bounds.length)
    (hpath : |args.path.back.s_| < 1 / 10000000) :
    ∃ r, Process env self args = some r ∧ r.ok = false ∧ r.calls = [] ∧ r.emitted = [] ∧
      r.speed_data = args.speed_data := by
  have h1 : ¬ args.s_bounds.length ≠ args.soft_s_bounds.length := not_not.mpr hlen
  have h2 : |(setDiscretization self args).total_length_| < 1 / 10000000 := hpath
  have hp : Process env self args
      = some (ProcessResult.failure (setDiscretization self args) args.s_bounds
          (none, none, none, none) (StageResult.mk [] [] []) args.speed_data []) := by
    simp only [Process, if_neg h1, if_pos h2]
  exact ⟨_, hp, rfl, rfl, rfl, rfl⟩

/-- Witness of C6: a path of length `1e-8`, with solvers that would succeed. -/
theorem Process_degenerate_path_witness :
    (sampleArgs (1 / 100000000)).s_bounds.length = (sampleArgs (1 / 100000000)).soft_s_bounds.length ∧
    |(sampleArgs (1 / 100000000)).path.back.s_| < 1 / 10000000 ∧
    ∃ r, Process (succeedingEnv (QPSolution.mk [0] [0] [0]) (QPSolution.mk [0] [0] [0])
        (StageResult.mk [0] [0] [0])) PiecewiseJerkSpeedOptimizer.new
          (sampleArgs (1 / 100000000)) = some r ∧
      r.ok = false ∧ r.calls = [] ∧ r.emitted = [] ∧
      r.speed_data = (sampleArgs (1 / 100000000)).speed_data :=
  ⟨by simp [sampleArgs], by norm_num [sampleArgs, flatPath, abs_of_pos],
    Process_degenerate_path _ _ _ (by simp [sampleArgs])
      (by norm_num [sampleArgs, flatPath, abs_of_pos])⟩

/-! ## The warm-start check of the nonlinear refiner (C7) -/

/-- C7: when one of the three warm-start sequences is empty, or the three are not all of the same
length, `OptimizeByNLP` returns failure, invokes the nonlinear engine neither for initialization
nor for solving (no solver invocation at all), and leaves the three sequences unchanged. -/
theorem OptimizeByNLP_invalid_warm_start (env : Collaborators)
    (self : PiecewiseJerkSpeedOptimizer) (s_bounds soft_s_bounds : List (ℚ × ℚ))
    (sr : StageResult)
    (h : sr.distance = [] ∨ sr.velocity = [] ∨ sr.acceleration = [] ∨
      ¬ (sr.distance.length = sr.velocity.length ∧
          sr.velocity.length = sr.acceleration.length)) :
    OptimizeByNLP env self s_bounds soft_s_bounds sr = (false, sr, []) := by
  have hw : warmStartInvalid sr := by
    unfold warmStartInvalid
    rcases h with h | h | h | h
    · exact Or.inl h
    · exact Or.inr (Or.inl h)
    · exact Or.inr (Or.inr (Or.inl h))
    · by_cases h1 : sr.distance.length = sr.velocity.length
      · exact Or.inr (Or.inr (Or.inr (Or.inr (fun h2 => h ⟨h1, h2⟩))))
      · exact Or.inr (Or.inr (Or.inr (Or.inl h1)))
  simp only [OptimizeByNLP, if_pos hw]

/-- Witness of C7: sequences of lengths 2, 2 and 1, with an engine that would succeed. -/
theorem OptimizeByNLP_invalid_warm_start_witness :
    ((StageResult.mk [0, 1] [2, 2] [0]).distance = [] ∨
      (StageResult.mk [0, 1] [2, 2] [0]).velocity = [] ∨
      (StageResult.mk [0, 1] [2, 2] [0]).acceleration = [] ∨
      ¬ ((StageResult.mk [0, 1] [2, 2] [0]).distance.length
            = (StageResult.mk [0, 1] [2, 2] [0]).velocity.length ∧
          (StageResult.mk [0, 1] [2, 2] [0]).velocity.length
            = (StageResult.mk [0, 1] [2, 2] [0]).acceleration.length)) ∧
    OptimizeByNLP (succeedingEnv (QPSolution.mk [0] [0] [0]) (QPSolution.mk [0] [0] [0])
        (StageResult.mk [0] [0] [0])) PiecewiseJerkSpeedOptimizer.new [(0, 0), (0, 5)]
        [(0, 0), (0, 5)] (StageResult.mk [0, 1] [2, 2] [0])
      = (false, StageResult.mk [0, 1] [2, 2] [0], []) :=
  ⟨by simp, OptimizeByNLP_invalid_warm_start _ _ _ _ _ (by simp)⟩

/-! ## Stage failures (C8) -/

/-- C8: if one of the four stages (reference smoother, curvature smoother, speed-limit smoother,
nonlinear refiner, run in that order) reports failure, i.e. the status variable that `Process`
keeps for it is `false`, then `Process` returns failure, no point is appended, the caller's
container is either untouched or empty, no later stage is run (its status variable is never
assigned) and no solver of a later stage is invoked. -/
theorem Process_stage_failure (env : Collaborators) (self : PiecewiseJerkSpeedOptimizer)
    (args : ProcessArgs) (r : ProcessResult) (h : Process env self args = some r) (s : Stage)
    (hs : r.status s = some false) :
    r.ok = false ∧ r.emitted = [] ∧
      (r.speed_data = args.speed_data ∨ r.speed_data = []) ∧
      (∀ s' : Stage, s.index < s'.index → r.status s' = none) ∧
      (∀ c ∈ r.calls, c.stage.index ≤ s.index) := by
  rcases Process_cases env self args r h with
    ⟨-, rfl⟩ | ⟨-, -, rfl⟩ | ⟨-, -, ok1, sr, c1, hqp, hrest⟩
  · cases s <;> simp [ProcessResult.status, ProcessResult.failure] at hs
  · cases s <;> simp [ProcessResult.status, ProcessResult.failure] at hs
  · have hc1 : c1 = [SolverCall.referenceQP (speedProblem
        (setLimits (setDiscretization self args) args)
        (clipBounds args.s_bounds args.path.back.s_) args.ref_s_list)] := by
      have := OptimizeByQP_calls env (setLimits (setDiscretization self args) args)
        (clipBounds args.s_bounds args.path.back.s_) args.ref_s_list (StageResult.mk [] [] [])
      rw [hqp] at this
      exact this
    rcases hrest with ⟨-, rfl⟩ | ⟨-, ok2, self3, c2, hcurv, hrest⟩
    · subst hc1
      cases s <;> simp [ProcessResult.status, ProcessResult.failure] at hs
      refine ⟨rfl, rfl, Or.inl rfl, ?_, ?_⟩
      · intro s' hlt
        cases s' <;> simp [Stage.index] at hlt <;> rfl
      · intro c hc
        simp only [ProcessResult.failure, List.mem_singleton] at hc
        subst hc
        simp [SolverCall.stage, Stage.index]
    · have hc2 := (SmoothPathCurvature_inv env _ _ _ _ _ hcurv).1
      rcases hrest with ⟨-, rfl⟩ | ⟨-, ok3, self4, c3, hsl, hrest⟩
      · subst hc1 hc2
        cases s <;> simp [ProcessResult.status, ProcessResult.failure] at hs
        refine ⟨rfl, rfl, Or.inl rfl, ?_, ?_⟩
        · intro s' hlt
          cases s' <;> simp [Stage.index] at hlt <;> rfl
        · intro c hc
          simp only [ProcessResult.failure, List.singleton_append, List.mem_cons,
            List.mem_singleton, List.not_mem_nil, or_false] at hc
          rcases hc with rfl | rfl <;> simp [SolverCall.stage, Stage.index]
      · have hc3 := (SmoothSpeedLimit_inv env _ _ _ _ _ hsl).1
        rcases hrest with ⟨-, rfl⟩ | ⟨-, ok4, sr', c4, hnlp, hrest⟩
        · subst hc1 hc2 hc3
          cases s <;> simp [ProcessResult.status, ProcessResult.failure] at hs
          refine ⟨rfl, rfl, Or.inl rfl, ?_, ?_⟩
          · intro s' hlt
            cases s' <;> simp [Stage.index] at hlt
            rfl
          · intro c hc
            simp only [ProcessResult.failure] at hc
            simp at hc
            rcases hc with rfl | rfl | rfl <;> simp [SolverCall.stage, Stage.index]
        · rcases hrest with ⟨-, rfl⟩ | ⟨-, points, -, rfl⟩
          · cases s <;> simp [ProcessResult.status, ProcessResult.failure] at hs
            refine ⟨rfl, rfl, Or.inr rfl, ?_, ?_⟩
            · intro s' hlt
              cases s' <;> simp [Stage.index] at hlt
            · intro c _
              cases c <;> simp [SolverCall.stage, Stage.index]
          · cases s <;> simp [ProcessResult.status] at hs

/-- Witness of C8: the reference QP fails on a valid three-knot input. -/
theorem Process_stage_failure_witness :
    ∃ r, Process failingEnv PiecewiseJerkSpeedOptimizer.new (sampleArgs 1) = some r ∧
      r.status Stage.referenceSmoother = some false ∧
      (r.ok = false ∧ r.emitted = [] ∧
        (r.speed_data = (sampleArgs 1).speed_data ∨ r.speed_data = []) ∧
        (∀ s' : Stage, Stage.referenceSmoother.index < s'.index → r.status s' = none) ∧
        (∀ c ∈ r.calls, c.stage.index ≤ Stage.referenceSmoother.index)) := by
  have hr : ∃ r, Process failingEnv PiecewiseJerkSpeedOptimizer.new (sampleArgs 1) = some r ∧
      r.status Stage.referenceSmoother = some false := by
    simp [Process, failingEnv, sampleArgs, flatPath, setDiscretization, setLimits,
      OptimizeByQP, ProcessResult.failure, ProcessResult.status]
    norm_num [abs_of_pos]
  obtain ⟨r, hp, hs⟩ := hr
  exact ⟨r, hp, hs, Process_stage_failure _ _ _ r hp _ hs⟩

/-! ## The discretization is not checked (C10) -/

/-- C10 as stated fails: an input with no knot at all and time step `-1` (equal-length, empty
bound sequences, path of length 1) is not rejected before the solvers: the reference QP solver is
invoked, on a problem with 0 knots and step `-1`. -/
theorem Process_invalid_discretization_reaches_solver :
    (noKnotArgs.s_bounds.length < 2 ∧ noKnotArgs.dt ≤ 0) ∧
    ∃ r problem, Process failingEnv PiecewiseJerkSpeedOptimizer.new noKnotArgs = some r ∧
      r.calls = [SolverCall.referenceQP problem] ∧ problem.num_of_knots = 0 ∧
      problem.delta_s = -1 := by
  refine ⟨by norm_num [noKnotArgs, sampleArgs], ?_⟩
  simp [Process, failingEnv, noKnotArgs, sampleArgs, flatPath, setDiscretization, setLimits,
    OptimizeByQP, ProcessResult.failure, speedProblem]
  norm_num [abs_of_pos]

/-- C10, amended: `Process` checks neither the number of knots nor the sign of the time step.
It ends without any solver invocation exactly when the bound sequences differ in length or the
path length is below `1e-7` in magnitude, and then it returns failure; on every other input,
whatever the number of knots and the time step, the reference QP solver is the first solver
invoked, on a problem with `num_knots = ` the length of the hard-bound sequence and step `dt`. -/
theorem Process_fail_fast_iff (env : Collaborators) (self : PiecewiseJerkSpeedOptimizer)
    (args : ProcessArgs) (r : ProcessResult) (h : Process env self args = some r) :
    (r.calls = [] ↔
      (args.s_bounds.length ≠ args.soft_s_bounds.length ∨
        |args.path.back.s_| < 1 / 10000000)) ∧
    (r.calls = [] → r.ok = false) ∧
    (r.calls ≠ [] → ∃ problem, r.calls.head? = some (SolverCall.referenceQP problem) ∧
      problem.num_of_knots = args.s_bounds.length ∧ problem.delta_s = args.dt) := by
  by_cases hpre : args.s_bounds.length ≠ args.soft_s_bounds.length ∨
      |args.path.back.s_| < 1 / 10000000
  · obtain ⟨hok, hcalls⟩ := Process_not_ran env self args r h hpre
    exact ⟨⟨fun _ => hpre, fun _ => hcalls⟩, fun _ => hok, fun hne => absurd hcalls hne⟩
  · have hlen : args.s_bounds.length = args.soft_s_bounds.length := by
      by_contra hne
      exact hpre (Or.inl hne)
    have hpath : ¬ |args.path.back.s_| < 1 / 10000000 := fun hlt => hpre (Or.inr hlt)
    obtain ⟨-, rest, hcalls, -⟩ := Process_ran env self args r h hlen hpath
    refine ⟨⟨fun hnil => ?_, fun hp => absurd hp hpre⟩, fun hnil => ?_, fun _ => ?_⟩
    · rw [hcalls] at hnil
      exact absurd hnil (by simp)
    · rw [hcalls] at hnil
      exact absurd hnil (by simp)
    · exact ⟨_, by rw [hcalls]; rfl, rfl, rfl⟩

/-- Witness of the amended C10: a valid three-knot input on which the reference QP fails. -/
theorem Process_fail_fast_iff_witness :
    ∃ r, Process failingEnv PiecewiseJerkSpeedOptimizer.new (sampleArgs 1) = some r ∧
      ((r.calls = [] ↔
        ((sampleArgs 1).s_bounds.length ≠ (sampleArgs 1).soft_s_bounds.length ∨
          |(sampleArgs 1).path.back.s_| < 1 / 10000000)) ∧
      (r.calls = [] → r.ok = false) ∧
      (r.calls ≠ [] → ∃ problem, r.calls.head? = some (SolverCall.referenceQP problem) ∧
        problem.num_of_knots = (sampleArgs 1).s_bounds.length ∧
        problem.delta_s = (sampleArgs 1).dt)) := by
  have hr : ∃ r, Process failingEnv PiecewiseJerkSpeedOptimizer.new (sampleArgs 1) = some r := by
    simp [Process, failingEnv, sampleArgs, flatPath, setDiscretization, setLimits,
      OptimizeByQP, ProcessResult.failure]
    norm_num
  obtain ⟨r, hp⟩ := hr
  exact ⟨r, hp, Process_fail_fast_iff _ _ _ r hp⟩

/-! ## Clipping of the hard bounds (C9) -/

/-- What `clipBounds` does at one knot: the lower value is kept, the upper value becomes the
minimum of the original upper value and the path length. -/
theorem clipBounds_getElem? (s_bounds : List (ℚ × ℚ)) (total_length : ℚ) (k : Nat) :
    (clipBounds s_bounds total_length)[k]?
      = (s_bounds[k]?).map (fun bound => (bound.1, min bound.2 total_length)) := by
  simp [clipBounds]

/-- C9 as stated fails: with the single hard bound `(30, 40)` (upper ≥ lower) on a path of
length 20, the input passes both precondition checks and the bounds handed to the reference QP
solver are `(30, 20)`, whose upper value is below the lower value. -/
theorem Process_clipping_breaks_order :
    (beyondPathArgs.s_bounds.length = beyondPathArgs.soft_s_bounds.length ∧
      ¬ |beyondPathArgs.path.back.s_| < 1 / 10000000 ∧
      ∀ bound ∈ beyondPathArgs.s_bounds, bound.1 ≤ bound.2) ∧
    ∃ r, Process failingEnv PiecewiseJerkSpeedOptimizer.new beyondPathArgs = some r ∧
      r.calls.map SolverCall.hardBounds = [some [(30, 20)]] ∧ ¬ ((30 : ℚ) ≤ 20) := by
  refine ⟨⟨by simp [beyondPathArgs, sampleArgs], ?_, ?_⟩, ?_⟩
  · norm_num [beyondPathArgs, sampleArgs, flatPath, abs_of_pos]
  · norm_num [beyondPathArgs, sampleArgs]
  · simp [Process, failingEnv, beyondPathArgs, sampleArgs, flatPath, setDiscretization,
      setLimits, OptimizeByQP, ProcessResult.failure, speedProblem, clipBounds,
      SolverCall.hardBounds]
    norm_num [abs_of_pos, SolverCall.hardBounds]

/-- C9, amended: for an input that passes both precondition checks, the hard bounds handed to
every solver that takes them (the reference QP and the nonlinear engine), which are also the
bounds left in the caller's sequence, have the length of the original sequence and, at every
knot, the original lower value and the upper value `min(original upper, path length)`, whatever
the order of the original pairs; at every knot whose original pair has `upper ≥ lower`, the
clipped pair still has `upper ≥ lower` exactly when the lower value does not exceed the path
length. -/
theorem Process_hard_bounds_clipped (env : Collaborators) (self : PiecewiseJerkSpeedOptimizer)
    (args : ProcessArgs) (r : ProcessResult) (h : Process env self args = some r)
    (hlen : args.s_bounds.length = args.soft_s_bounds.length)
    (hpath : ¬ |args.path.back.s_| < 1 / 10000000) :
    (∀ c ∈ r.calls, ∀ bounds, c.hardBounds = some bounds → bounds = r.s_bounds) ∧
    (∃ problem, SolverCall.referenceQP problem ∈ r.calls ∧
      problem.x_bounds = XBounds.perKnot r.s_bounds) ∧
    r.s_bounds.length = args.s_bounds.length ∧
    ∀ (k : Nat) (lower upper : ℚ), args.s_bounds[k]? = some (lower, upper) →
      r.s_bounds[k]? = some (lower, min upper args.path.back.s_) ∧
      (lower ≤ upper →
        (lower ≤ min upper args.path.back.s_ ↔ lower ≤ args.path.back.s_)) := by
  obtain ⟨hsb, rest, hcalls, hrest⟩ := Process_ran env self args r h hlen hpath
  refine ⟨?_, ?_, ?_, ?_⟩
  · intro c hc bounds hb
    rw [hcalls] at hc
    rcases List.mem_cons.mp hc with rfl | hc
    · simp only [SolverCall.hardBounds, speedProblem, Option.some.injEq] at hb
      rw [hsb, hb]
    · rcases hrest c hc with rfl | rfl | rfl | ⟨self4, sr, rfl⟩
      · simp [SolverCall.hardBounds] at hb
      · simp [SolverCall.hardBounds] at hb
      · simp [SolverCall.hardBounds] at hb
      · simp only [SolverCall.hardBounds, nlpProblem, Option.some.injEq] at hb
        rw [hsb, hb]
  · exact ⟨_, by rw [hcalls]; exact List.mem_cons_self _ _, by rw [hsb]; rfl⟩
  · rw [hsb]
    simp [clipBounds]
  · intro k lower upper hk
    refine ⟨by rw [hsb, clipBounds_getElem?, hk]; rfl, ?_⟩
    intro hlu
    exact ⟨fun hmin => le_trans hmin (min_le_right _ _), fun hl => le_min hlu hl⟩

/-- Witness of the amended C9: the valid three-knot input on a path of length 1, where the upper
values 5 and 10 are clipped to 1. -/
theorem Process_hard_bounds_clipped_witness :
    ∃ r, Process failingEnv PiecewiseJerkSpeedOptimizer.new (sampleArgs 1) = some r ∧
      r.s_bounds = [(0, 0), (0, 1), (0, 1)] ∧
      ((∀ c ∈ r.calls, ∀ bounds, c.hardBounds = some bounds → bounds = r.s_bounds) ∧
      (∃ problem, SolverCall.referenceQP problem ∈ r.calls ∧
        problem.x_bounds = XBounds.perKnot r.s_bounds) ∧
      r.s_bounds.length = (sampleArgs 1).s_bounds.length ∧
      ∀ (k : Nat) (lower upper : ℚ), (sampleArgs 1).s_bounds[k]? = some (lower, upper) →
        r.s_bounds[k]? = some (lower, min upper (sampleArgs 1).path.back.s_) ∧
        (lower ≤ upper →
          (lower ≤ min upper (sampleArgs 1).path.back.s_ ↔
            lower ≤ (sampleArgs 1).path.back.s_))) := by
  have hr : ∃ r, Process failingEnv PiecewiseJerkSpeedOptimizer.new (sampleArgs 1) = some r ∧
      r.s_bounds = [(0, 0), (0, 1), (0, 1)] := by
    simp [Process, failingEnv, sampleArgs, flatPath, setDiscretization, setLimits,
      OptimizeByQP, ProcessResult.failure, clipBounds]
    norm_num [abs_of_pos]
  obtain ⟨r, hp, hb⟩ := hr
  exact ⟨r, hp, hb, Process_hard_bounds_clipped _ _ _ r hp (by simp [sampleArgs])
    (by norm_num [sampleArgs, flatPath, abs_of_pos])⟩

/-! ## The output assembly (C1, C3) -/

/-- Invariant of the assembly loop: started at loop index `s ≥ 1` on a container that holds the
prescribed points of the knots `0 .. s-1`, it ends with a container that holds the prescribed
points of the knots `0 .. length-1`, and it has stopped at or before every knot of its range
whose velocity is negative. -/
theorem assembleLoop_spec (dt : ℚ) (sr : StageResult) :
    ∀ (m s : Nat) (out res : SpeedData), 1 ≤ s → out.length = s →
      (∀ k, k < s → out[k]? = knotPoint dt sr k) →
      assembleLoop dt sr (List.range' s m) out = some res →
      s ≤ res.length ∧ res.length ≤ s + m ∧
        (∀ k, k < res.length → res[k]? = knotPoint dt sr k) ∧
        (∀ k v, s ≤ k → k < s + m → sr.velocity[k]? = some v → v < 0 → res.length ≤ k) := by
  intro m
  induction m with
  | zero =>
    intro s out res _ hl hinv h
    simp only [List.range'_zero, assembleLoop, Option.some.injEq] at h
    subst h
    exact ⟨hl.ge, hl.le, by rw [hl]; exact hinv, by intros; omega⟩
  | succ m ih =>
    intro s out res hs hl hinv h
    rw [List.range'_succ] at h
    simp only [assembleLoop] at h
    split at h
    · exact absurd h (by simp)
    · next vi hv =>
      split_ifs at h with hneg
      · simp only [Option.some.injEq] at h
        subst h
        refine ⟨hl.ge, by omega, by rw [hl]; exact hinv, ?_⟩
        intro k v hk _ _ _
        omega
      · split at h
        · next di ai aprev hd ha hap =>
          have hinv' : ∀ k, k < s + 1 →
              (AppendSpeedPoint out di (dt * (s : ℚ)) vi ai ((ai - aprev) / dt))[k]?
                = knotPoint dt sr k := by
            intro k hk
            unfold AppendSpeedPoint
            by_cases hks : k < s
            · rw [List.getElem?_append_left (by omega)]
              exact hinv k hks
            · have hke : k = s := by omega
              subst hke
              rw [List.getElem?_append_right (by omega)]
              have hs0 : k ≠ 0 := by omega
              simp [hl, knotPoint, hd, hv, ha, hap, hs0, mul_comm]
          have hl' : (AppendSpeedPoint out di (dt * (s : ℚ)) vi ai ((ai - aprev) / dt)).length
              = s + 1 := by
            simp [AppendSpeedPoint, hl]
          obtain ⟨h1, h2, h3, h4⟩ := ih (s + 1) _ res (by omega) hl' hinv' h
          refine ⟨by omega, by omega, h3, ?_⟩
          intro k v hk hkm hvk hvneg
          by_cases hks : k = s
          · subst hks
            rw [hv] at hvk
            simp only [Option.some.injEq] at hvk
            subst hvk
            exact absurd hvneg hneg
          · exact h4 k v (by omega) (by omega) hvk hvneg
        · exact absurd h (by simp)

/-- The output assembly on the sequences `sr` with `n` knots: at least the point of knot 0 is
appended, at most `max 1 n` points are, the point at position `k` is the one prescribed for knot
`k`, and nothing is appended from the first knot `k ≥ 1` with negative velocity on. -/
theorem assemble_spec (dt : ℚ) (n : Nat) (sr : StageResult) (res : SpeedData)
    (h : assemble dt n sr = some res) :
    1 ≤ res.length ∧ res.length ≤ 1 + (n - 1) ∧
      (∀ k, k < res.length → res[k]? = knotPoint dt sr k) ∧
      (∀ k v, 1 ≤ k → k < n → sr.velocity[k]? = some v → v < 0 → res.length ≤ k) := by
  unfold assemble at h
  split at h
  · next d0 v0 a0 hd hv ha =>
    have hinv : ∀ k, k < 1 → (AppendSpeedPoint [] d0 0 v0 a0 0)[k]? = knotPoint dt sr k := by
      intro k hk
      have hk0 : k = 0 := by omega
      subst hk0
      simp [AppendSpeedPoint, knotPoint, hd, hv, ha]
    obtain ⟨h1, h2, h3, h4⟩ :=
      assembleLoop_spec dt sr (n - 1) 1 _ res (le_refl 1) (by simp [AppendSpeedPoint]) hinv h
    exact ⟨h1, h2, h3, fun k v hk hkn hvk hvneg => h4 k v hk (by omega) hvk hvneg⟩
  · exact absurd h (by simp)

/-- The assembly loop returns a container whenever the loop indices stay within the three
sequences. -/
theorem assembleLoop_isSome (dt : ℚ) (sr : StageResult) :
    ∀ (m s : Nat) (out : SpeedData), 1 ≤ s → s + m ≤ sr.distance.length →
      s + m ≤ sr.velocity.length → s + m ≤ sr.acceleration.length →
      (assembleLoop dt sr (List.range' s m) out).isSome = true := by
  intro m
  induction m with
  | zero =>
    intro s out _ _ _ _
    simp [assembleLoop]
  | succ m ih =>
    intro s out hs hd hv ha
    rw [List.range'_succ]
    simp only [assembleLoop]
    have hvs : sr.velocity[s]? = some sr.velocity[s] := List.getElem?_eq_getElem (by omega)
    have hds : sr.distance[s]? = some sr.distance[s] := List.getElem?_eq_getElem (by omega)
    have has : sr.acceleration[s]? = some sr.acceleration[s] :=
      List.getElem?_eq_getElem (by omega)
    have hap : sr.acceleration[s - 1]? = some sr.acceleration[s - 1] :=
      List.getElem?_eq_getElem (by omega)
    rw [hvs, hds, has, hap]
    simp only
    split_ifs
    · rfl
    · exact ih (s + 1) _ (by omega) (by omega) (by omega) (by omega)

/-- The output assembly is total on sequences that have at least one element and at least
`n` elements each: it returns a container. -/
theorem assemble_isSome (dt : ℚ) (n : Nat) (sr : StageResult)
    (hd : 1 ≤ sr.distance.length ∧ n ≤ sr.distance.length)
    (hv : 1 ≤ sr.velocity.length ∧ n ≤ sr.velocity.length)
    (ha : 1 ≤ sr.acceleration.length ∧ n ≤ sr.acceleration.length) :
    (assemble dt n sr).isSome = true := by
  unfold assemble
  have hd0 : sr.distance[0]? = some sr.distance[0] := List.getElem?_eq_getElem (by omega)
  have hv0 : sr.velocity[0]? = some sr.velocity[0] := List.getElem?_eq_getElem (by omega)
  have ha0 : sr.acceleration[0]? = some sr.acceleration[0] :=
    List.getElem?_eq_getElem (by omega)
  rw [hd0, hv0, ha0]
  exact assembleLoop_isSome dt sr (n - 1) 1 _ (le_refl 1) (by omega) (by omega) (by omega)

/-- A successful `Process` call passed both precondition checks, its refined sequences are
what the nonlinear engine reported on an interface object built with the initial state
`(0, init_v, init_a)`, and the points it appended are the output assembly of the refined
sequences with the time step and the number of knots of the call. -/
theorem Process_success (env : Collaborators) (self : PiecewiseJerkSpeedOptimizer)
    (args : ProcessArgs) (r : ProcessResult) (h : Process env self args = some r)
    (hok : r.ok = true) :
    args.s_bounds.length = args.soft_s_bounds.length ∧
    ¬ |args.path.back.s_| < 1 / 10000000 ∧
    assemble args.dt args.s_bounds.length r.refined = some r.emitted ∧
    r.speed_data = env.FillEnoughSpeedPoints r.emitted ∧
    ∃ problem : NlpProblem, r.refined = (env.ipoptOptimizeTNLP problem).2 ∧
      ((env.ipoptOptimizeTNLP problem).1 = ApplicationReturnStatus.Solve_Succeeded ∨
        (env.ipoptOptimizeTNLP problem).1
          = ApplicationReturnStatus.Solved_To_Acceptable_Level) ∧
      problem.s_init = 0 ∧ problem.s_dot_init = args.init_v ∧
      problem.s_ddot_init = args.init_a := by
  rcases Process_cases env self args r h with
    ⟨-, rfl⟩ | ⟨-, -, rfl⟩ | ⟨hlen, hpath, ok1, sr, c1, hqp, hrest⟩
  · exact absurd hok (by simp [ProcessResult.failure])
  · exact absurd hok (by simp [ProcessResult.failure])
  · rcases hrest with ⟨-, rfl⟩ | ⟨-, ok2, self3, c2, hcurv, hrest⟩
    · exact absurd hok (by simp [ProcessResult.failure])
    · rcases hrest with ⟨-, rfl⟩ | ⟨-, ok3, self4, c3, hsl, hrest⟩
      · exact absurd hok (by simp [ProcessResult.failure])
      · rcases hrest with ⟨-, rfl⟩ | ⟨-, ok4, sr', c4, hnlp, hrest⟩
        · exact absurd hok (by simp [ProcessResult.failure])
        · rcases hrest with ⟨-, rfl⟩ | ⟨hok4, points, hasm, rfl⟩
          · exact absurd hok (by simp [ProcessResult.failure])
          · obtain ⟨-, h3dt, h3n, h3s, h3v, h3a⟩ := SmoothPathCurvature_inv env _ _ _ _ _ hcurv
            obtain ⟨-, h4dt, h4n, h4s, h4v, h4a⟩ := SmoothSpeedLimit_inv env _ _ _ _ _ hsl
            obtain ⟨hsr, hst⟩ := (OptimizeByNLP_inv env _ _ _ _ _ _ _ hnlp).2.1 hok4
            have hdt : self4.delta_t_ = args.dt := by rw [h4dt, h3dt]; rfl
            have hn : self4.num_of_knots_ = args.s_bounds.length := by rw [h4n, h3n]; rfl
            rw [hdt, hn] at hasm
            refine ⟨hlen, hpath, hasm, rfl, _, hsr, hst, ?_, ?_, ?_⟩
            · show self4.s_init_ = 0
              rw [h4s, h3s]; rfl
            · show self4.s_dot_init_ = args.init_v
              rw [h4v, h3v]; rfl
            · show self4.s_ddot_init_ = args.init_a
              rw [h4a, h3a]; rfl

/-- The sample collaborators respect the fixed initial state. -/
theorem sampleEnv_fixedInitialState : FixedInitialState sampleEnv := by
  intro problem _
  simp [sampleEnv, succeedingEnv]

/-- On the three-knot sample input the sample collaborators lead `Process` to success with the
refined velocities `[2, 2, -1]`; two points are appended. -/
theorem Process_sampleArgs :
    ∃ r, Process sampleEnv PiecewiseJerkSpeedOptimizer.new (sampleArgs 1) = some r ∧
      r.ok = true ∧ r.refined = StageResult.mk [0, 1, 2] [2, 2, -1] [0, 1 / 2, 0] ∧
      r.emitted = [ProfilePoint.mk 0 0 2 0 0, ProfilePoint.mk 1 (1 / 2) 2 (1 / 2) 1] := by
  simp [Process, sampleEnv, succeedingEnv, sampleArgs, flatPath, setDiscretization, setLimits,
    OptimizeByQP, ProcessResult.failure, SmoothPathCurvature, SmoothSpeedLimit,
    reconstructCurve, OptimizeByNLP, warmStartInvalid, nlpProblem, assemble, assembleLoop,
    AppendSpeedPoint, List.range']
  norm_num [abs_of_pos]

/-- C3: in a successful `Process` call with time step `dt`, the point that the assembly appended
at position `k` is built from knot `k` of the refined sequences: its distance, velocity and
acceleration are `position[k]`, `velocity[k]`, `acceleration[k]`, its time is `k * dt` (so `0`
for `k = 0`), and its jerk is `0` for `k = 0` and `(acceleration[k] - acceleration[k-1]) / dt`
for `k ≥ 1`. -/
theorem Process_emitted_points (env : Collaborators) (self : PiecewiseJerkSpeedOptimizer)
    (args : ProcessArgs) (r : ProcessResult) (h : Process env self args = some r)
    (hok : r.ok = true) :
    ∀ (k : Nat) (p : ProfilePoint), r.emitted[k]? = some p →
      r.refined.distance[k]? = some p.distance ∧
      r.refined.velocity[k]? = some p.velocity ∧
      r.refined.acceleration[k]? = some p.acceleration ∧
      p.time = (k : ℚ) * args.dt ∧
      (k = 0 → p.time = 0 ∧ p.jerk = 0) ∧
      (1 ≤ k → ∃ aprev, r.refined.acceleration[k - 1]? = some aprev ∧
        p.jerk = (p.acceleration - aprev) / args.dt) := by
  intro k p hp
  obtain ⟨-, -, hasm, -, -⟩ := Process_success env self args r h hok
  obtain ⟨-, -, hpts, -⟩ := assemble_spec args.dt args.s_bounds.length r.refined r.emitted hasm
  have hk : k < r.emitted.length := (List.getElem?_eq_some.mp hp).1
  have hkp := hpts k hk
  rw [hp] at hkp
  unfold knotPoint at hkp
  split at hkp
  · next d v a hd hv ha =>
    split_ifs at hkp with hk0
    · simp only [Option.some.injEq] at hkp
      subst hkp
      subst hk0
      exact ⟨hd, hv, ha, by simp, fun _ => ⟨rfl, rfl⟩, fun h1 => absurd h1 (by omega)⟩
    · cases hap : r.refined.acceleration[k - 1]? with
      | none => simp [hap] at hkp
      | some aprev =>
        simp only [hap, Option.map_some', Option.some.injEq] at hkp
        subst hkp
        exact ⟨hd, hv, ha, rfl, fun h0 => absurd h0 hk0, fun _ => ⟨aprev, rfl, rfl⟩⟩
  · exact absurd hkp (by simp)

/-- Witness of C3: the successful three-knot sample call, whose second appended point is
`(1, 1/2, 2, 1/2, 1)`. -/
theorem Process_emitted_points_witness :
    ∃ r, Process sampleEnv PiecewiseJerkSpeedOptimizer.new (sampleArgs 1) = some r ∧
      r.ok = true ∧ r.emitted[1]? = some (ProfilePoint.mk 1 (1 / 2) 2 (1 / 2) 1) ∧
      ∀ (k : Nat) (p : ProfilePoint), r.emitted[k]? = some p →
        r.refined.distance[k]? = some p.distance ∧
        r.refined.velocity[k]? = some p.velocity ∧
        r.refined.acceleration[k]? = some p.acceleration ∧
        p.time = (k : ℚ) * (sampleArgs 1).dt ∧
        (k = 0 → p.time = 0 ∧ p.jerk = 0) ∧
        (1 ≤ k → ∃ aprev, r.refined.acceleration[k - 1]? = some aprev ∧
          p.jerk = (p.acceleration - aprev) / (sampleArgs 1).dt) := by
  obtain ⟨r, hp, hok, -, hem⟩ := Process_sampleArgs
  exact ⟨r, hp, hok, by rw [hem]; rfl, Process_emitted_points _ _ _ r hp hok⟩

/-- C1 as stated fails at knot 0: with initial velocity `-1` the refined velocity of knot 0 is
`-1 < 0`, the call succeeds, and the point of knot 0 is appended all the same. -/
theorem Process_emits_knot_zero_with_negative_velocity :
    ∃ r, Process sampleEnv PiecewiseJerkSpeedOptimizer.new reversingArgs = some r ∧
      r.ok = true ∧ r.refined.velocity[0]? = some (-1 : ℚ) ∧ (-1 : ℚ) < 0 ∧
      r.emitted[0]? = some (ProfilePoint.mk 0 0 (-1) 0 0) := by
  simp [Process, sampleEnv, succeedingEnv, reversingArgs, sampleArgs, flatPath,
    setDiscretization, setLimits, OptimizeByQP, ProcessResult.failure, SmoothPathCurvature,
    SmoothSpeedLimit, reconstructCurve, OptimizeByNLP, warmStartInvalid, nlpProblem, assemble,
    assembleLoop, AppendSpeedPoint, List.range']
  norm_num [abs_of_pos]

/-- C1, amended: in a successful `Process` call the point of knot 0 is always appended, and for
every knot index `k` from 1 to `num_knots - 1`, if the refined `velocity[k] < 0` then no point
with index `≥ k` is appended (the appended points are those of the knots `0, 1, ...` in order,
so fewer than `k + 1` of them exist and every position `j ≥ k` of the output is empty). -/
theorem Process_truncates_at_negative_velocity (env : Collaborators)
    (self : PiecewiseJerkSpeedOptimizer) (args : ProcessArgs) (r : ProcessResult)
    (h : Process env self args = some r) (hok : r.ok = true) :
    1 ≤ r.emitted.length ∧
    ∀ (k : Nat) (v : ℚ), 1 ≤ k → k < args.s_bounds.length → r.refined.velocity[k]? = some v →
      v < 0 → r.emitted.length ≤ k ∧ ∀ j, k ≤ j → r.emitted[j]? = none := by
  obtain ⟨-, -, hasm, -, -⟩ := Process_success env self args r h hok
  obtain ⟨h1, -, -, h4⟩ := assemble_spec args.dt args.s_bounds.length r.refined r.emitted hasm
  refine ⟨h1, fun k v hk hkn hv hneg => ?_⟩
  have hle := h4 k v hk hkn hv hneg
  exact ⟨hle, fun j hj => List.getElem?_eq_none (by omega)⟩

/-- Witness of the amended C1: in the successful three-knot sample call the refined velocity of
knot 2 is `-1`, and two points (knots 0 and 1) are appended. -/
theorem Process_truncates_at_negative_velocity_witness :
    ∃ r, Process sampleEnv PiecewiseJerkSpeedOptimizer.new (sampleArgs 1) = some r ∧
      r.ok = true ∧ r.refined.velocity[2]? = some (-1 : ℚ) ∧ r.emitted.length = 2 ∧
      (1 ≤ r.emitted.length ∧
      ∀ (k : Nat) (v : ℚ), 1 ≤ k → k < (sampleArgs 1).s_bounds.length →
        r.refined.velocity[k]? = some v → v < 0 →
        r.emitted.length ≤ k ∧ ∀ j, k ≤ j → r.emitted[j]? = none) := by
  obtain ⟨r, hp, hok, hre, hem⟩ := Process_sampleArgs
  exact ⟨r, hp, hok, by rw [hre]; simp, by rw [hem]; rfl,
    Process_truncates_at_negative_velocity _ _ _ r hp hok⟩

/-! ## The first point (C2) -/

/-- C2: when the nonlinear refiner keeps the initial state fixed (the constraint that the
specification gives it), a successful `Process` call (which implies bound sequences of equal
length and a path length not below the epsilon) appends as its first point
`(distance 0, time 0, velocity init_v, acceleration init_a, jerk 0)`. -/
theorem Process_first_point (env : Collaborators) (self : PiecewiseJerkSpeedOptimizer)
    (args : ProcessArgs) (r : ProcessResult) (hfix : FixedInitialState env)
    (h : Process env self args = some r) (hok : r.ok = true) :
    args.s_bounds.length = args.soft_s_bounds.length ∧
    ¬ |args.path.back.s_| < 1 / 10000000 ∧
    r.emitted.head? = some (ProfilePoint.mk 0 0 args.init_v args.init_a 0) := by
  obtain ⟨hlen, hpath, hasm, -, problem, hsr, hst, hs, hv, ha⟩ :=
    Process_success env self args r h hok
  obtain ⟨h1, -, hpts, -⟩ := assemble_spec args.dt args.s_bounds.length r.refined r.emitted hasm
  obtain ⟨fd, fv, fa⟩ := hfix problem hst
  rw [← hsr, hs] at fd
  rw [← hsr, hv] at fv
  rw [← hsr, ha] at fa
  refine ⟨hlen, hpath, ?_⟩
  have h0 := hpts 0 (by omega)
  rw [List.head?_eq_getElem?, h0]
  rw [List.head?_eq_getElem?] at fd fv fa
  simp [knotPoint, fd, fv, fa]

/-- Witness of C2: the successful three-knot sample call, with `init_v = 2`, `init_a = 0`. -/
theorem Process_first_point_witness :
    FixedInitialState sampleEnv ∧
    ∃ r, Process sampleEnv PiecewiseJerkSpeedOptimizer.new (sampleArgs 1) = some r ∧
      r.ok = true ∧
      ((sampleArgs 1).s_bounds.length = (sampleArgs 1).soft_s_bounds.length ∧
      ¬ |(sampleArgs 1).path.back.s_| < 1 / 10000000 ∧
      r.emitted.head? = some (ProfilePoint.mk 0 0 (sampleArgs 1).init_v
        (sampleArgs 1).init_a 0)) := by
  obtain ⟨r, hp, hok, -, -⟩ := Process_sampleArgs
  exact ⟨sampleEnv_fixedInitialState, r, hp, hok,
    Process_first_point _ _ _ r sampleEnv_fixedInitialState hp hok⟩

/-! ## Curve reconstruction (C4) -/

/-- Appending segments in a loop keeps the anchor and puts the segments, in the order of the
loop, after those already present. -/
theorem foldl_AppendSegment (g : Nat → ℚ) (h : ℚ) :
    ∀ (l : List Nat) (c : PiecewiseJerkTrajectory1d),
      l.foldl (fun curve i => curve.AppendSegment (g i) h) c
        = { c with segments := c.segments ++ l.map (fun i => (g i, h)) } := by
  intro l
  induction l with
  | nil => intro c; simp
  | cons i l ih =>
    intro c
    rw [List.foldl_cons, ih]
    simp [PiecewiseJerkTrajectory1d.AppendSegment]

/-- Evaluation along segments of equal length `h` whose jerks are the divided differences of a
sequence `d`: starting from second derivative `d (s-1)`, the second derivative at `i * h` is
`d (s-1+i)`. -/
theorem evaluateFrom_knot (d : Nat → ℚ) (h : ℚ) (hpos : 0 < h) :
    ∀ (m s i : Nat) (x dx : ℚ), 1 ≤ s → i ≤ m →
      ∃ x' dx', evaluateFrom ((List.range' s m).map (fun i => ((d i - d (i - 1)) / h, h)))
        (x, dx, d (s - 1)) ((i : ℚ) * h) = some (x', dx', d (s - 1 + i)) := by
  intro m
  induction m with
  | zero =>
    intro s i x dx _ hi
    have hi0 : i = 0 := by omega
    subst hi0
    exact ⟨x, dx, by simp [evaluateFrom]⟩
  | succ m ih =>
    intro s i x dx hs hi
    rw [List.range'_succ, List.map_cons]
    simp only [evaluateFrom]
    have hi_nonneg : ¬ ((i : ℚ) * h < 0) := by
      have : (0 : ℚ) ≤ (i : ℚ) * h := mul_nonneg (Nat.cast_nonneg i) hpos.le
      linarith
    rw [if_neg hi_nonneg]
    have hne : h ≠ 0 := ne_of_gt hpos
    rcases Nat.lt_or_ge i 2 with hlt | hge
    · have hle : (i : ℚ) * h ≤ h := by
        have hi1 : (i : ℚ) ≤ 1 := by exact_mod_cast (by omega : i ≤ 1)
        calc (i : ℚ) * h ≤ 1 * h := mul_le_mul_of_nonneg_right hi1 hpos.le
          _ = h := one_mul h
      rw [if_pos hle]
      have hthird : d (s - 1) + (d s - d (s - 1)) / h * ((i : ℚ) * h) = d (s - 1 + i) := by
        rcases Nat.eq_zero_or_pos i with h0 | h1
        · subst h0
          simp
        · have hi1 : i = 1 := by omega
          subst hi1
          have hs1 : s - 1 + 1 = s := by omega
          rw [hs1]
          field_simp
      rw [hthird]
      exact ⟨_, _, rfl⟩
    · have hgt : ¬ ((i : ℚ) * h ≤ h) := by
        have hi2 : (2 : ℚ) ≤ (i : ℚ) := by exact_mod_cast hge
        have : 2 * h ≤ (i : ℚ) * h := mul_le_mul_of_nonneg_right hi2 hpos.le
        linarith
      rw [if_neg hgt]
      have hstate : d (s - 1) + (d s - d (s - 1)) / h * h = d (s + 1 - 1) := by
        rw [Nat.add_sub_cancel]
        field_simp
      have htime : (i : ℚ) * h - h = ((i - 1 : Nat) : ℚ) * h := by
        rw [Nat.cast_sub (by omega : 1 ≤ i)]
        simp only [Nat.cast_one]
        ring
      rw [hstate, htime]
      obtain ⟨x', dx', he⟩ := ih (s + 1) (i - 1) (x + dx * h + d (s - 1) * h ^ 2 / 2
        + (d s - d (s - 1)) / h * h ^ 3 / 6) (dx + d (s - 1) * h + (d s - d (s - 1)) / h
        * h ^ 2 / 2) (by omega) (by omega)
      refine ⟨x', dx', ?_⟩
      rw [he]
      congr 4
      omega

/-- C4: for every spacing `h > 0` (in particular `0.5` and `2.0`), every anchor value `x0` and
first derivative `dx0`, and every non-empty second-derivative sequence `ddx`, the curve that
`SmoothPathCurvature` / `SmoothSpeedLimit` reconstruct exists, has the anchor
`(x0, dx0, ddx[0])` and one segment of length `h` with jerk `(ddx[i] - ddx[i-1]) / h` for each
`i = 1 .. n-1`, and its second derivative at the coordinate `i * h` is `ddx[i]` for every
`i = 0 .. n-1`. -/
theorem reconstructCurve_roundtrip (h : ℚ) (hpos : 0 < h) (x0 dx0 : ℚ) (xs dxs ddx : List ℚ)
    (hne : ddx ≠ []) :
    ∃ c, reconstructCurve h (QPSolution.mk (x0 :: xs) (dx0 :: dxs) ddx) = some c ∧
      c.x0 = x0 ∧ c.dx0 = dx0 ∧ ddx[0]? = some c.ddx0 ∧
      c.segments = (List.range' 1 (ddx.length - 1)).map
        (fun i => ((ddx.getD i 0 - ddx.getD (i - 1) 0) / h, h)) ∧
      ∀ i, i < ddx.length → (c.Evaluate ((i : ℚ) * h)).map (fun e => e.2.2) = ddx[i]? := by
  cases ddx with
  | nil => exact absurd rfl hne
  | cons a rest =>
    have hrc : reconstructCurve h (QPSolution.mk (x0 :: xs) (dx0 :: dxs) (a :: rest))
        = some ((List.range' 1 ((a :: rest).length - 1)).foldl
            (fun curve i => curve.AppendSegment
              (((a :: rest).getD i 0 - (a :: rest).getD (i - 1) 0) / h) h)
            (PiecewiseJerkTrajectory1d.mk x0 dx0 a [])) := by
      simp only [reconstructCurve, List.head?_cons]
    refine ⟨_, hrc, ?_⟩
    rw [foldl_AppendSegment (fun i => ((a :: rest).getD i 0 - (a :: rest).getD (i - 1) 0) / h) h]
    refine ⟨rfl, rfl, by simp, by simp, ?_⟩
    intro i hi
    obtain ⟨x', dx', he⟩ := evaluateFrom_knot (fun i => (a :: rest).getD i 0) h hpos
      ((a :: rest).length - 1) 1 i x0 dx0 (le_refl 1) (by omega)
    simp only [PiecewiseJerkTrajectory1d.Evaluate, List.nil_append]
    have ha : (a :: rest).getD (1 - 1) 0 = a := rfl
    rw [ha] at he
    rw [he]
    simp only [Option.map_some']
    have hidx : 1 - 1 + i = i := by omega
    rw [hidx, List.getD_eq_getElem?_getD, List.getElem?_eq_getElem hi]
    simp

/-- Witness of C4: spacing `1/2`, anchor value 1 and first derivative 0, second derivatives
`[0, 1, 3]`. -/
theorem reconstructCurve_roundtrip_witness :
    (0 : ℚ) < 1 / 2 ∧ ([0, 1, 3] : List ℚ) ≠ [] ∧
    ∃ c, reconstructCurve (1 / 2) (QPSolution.mk (1 :: [1, 1]) (0 :: [0, 0]) [0, 1, 3]) = some c ∧
      c.x0 = 1 ∧ c.dx0 = 0 ∧ ([0, 1, 3] : List ℚ)[0]? = some c.ddx0 ∧
      c.segments = (List.range' 1 (([0, 1, 3] : List ℚ).length - 1)).map
        (fun i => ((([0, 1, 3] : List ℚ).getD i 0 - ([0, 1, 3] : List ℚ).getD (i - 1) 0)
          / (1 / 2), 1 / 2)) ∧
      ∀ i, i < ([0, 1, 3] : List ℚ).length →
        (c.Evaluate ((i : ℚ) * (1 / 2))).map (fun e => e.2.2) = ([0, 1, 3] : List ℚ)[i]? :=
  ⟨by norm_num, by simp,
    reconstructCurve_roundtrip (1 / 2) (by norm_num) 1 0 [1, 1] [0, 0] [0, 1, 3] (by simp)⟩

end QPSpeedplan
